import Mathlib

/-!
Shallow embedding of the calendar-event core of `src/app.py`
(Streamlit Calendar Entry App).

The embedded parts are:
* the `add_event_callback` validation-and-append logic (lines 122-150);
* the delete handler's `entries.pop(actual_index)` (line 194), modelled
  with full Python `list.pop` semantics (negative indices, `IndexError`);
* the pagination arithmetic `total_pages = (total_entries - 1) //
  rows_per_page + 1` (line 165) and the page slice
  `entries[start_idx:end_idx]` (lines 172-173, 184);
* the ICS serializer `create_ics_event` / `generate_ics_content`
  (lines 25-76).

Python `datetime.datetime` values (second precision, no timezone) are
modelled by the six-field structure `DateTime`; comparison is via the
lexicographic numeric key `DateTime.key`, and `strftime("%Y%m%dT%H%M%S")`
is `DateTime.fmtFull`.  Python `str.strip()` is `pyStrip` (drop ASCII
whitespace from both ends), and `"\n".join(...)` is `joinLines`.  The
two non-deterministic inputs of the exporter, `datetime.datetime.now()`
and `uuid.uuid4()`, are made explicit as an environment
`env : Nat → String × String` giving the (stamp, uid) pair used for the
i-th event of a given export call.
-/

/-- A calendar timestamp: date plus time of day, second precision, no
timezone (the payload of Python's `datetime.datetime` as used by the app). -/
structure DateTime where
  year : Nat
  month : Nat
  day : Nat
  hour : Nat
  minute : Nat
  second : Nat
deriving DecidableEq

/-- Numeric key realizing the lexicographic order of Python `datetime`
comparison `(year, month, day, hour, minute, second)`. -/
def DateTime.key (d : DateTime) : Nat :=
  ((((d.year * 100 + d.month) * 100 + d.day) * 100 + d.hour) * 100 + d.minute) * 100 + d.second

/-- Zero-pad a number to width 2 (as in `strftime` `%m`, `%d`, `%H`, `%M`, `%S`). -/
def pad2 (n : Nat) : String :=
  if n < 10 then "0" ++ toString n else toString n

/-- Zero-pad a number to width 4 (as in `strftime` `%Y`). -/
def pad4 (n : Nat) : String :=
  if n < 10 then "000" ++ toString n
  else if n < 100 then "00" ++ toString n
  else if n < 1000 then "0" ++ toString n
  else toString n

/-- `strftime("%Y%m%dT%H%M%S")` of app.py line 27. -/
def DateTime.fmtFull (d : DateTime) : String :=
  pad4 d.year ++ pad2 d.month ++ pad2 d.day ++ "T" ++ pad2 d.hour ++ pad2 d.minute ++ pad2 d.second

/-- Strip whitespace from both ends of a character list (list-level model
of Python `str.strip()`). -/
def trimChars (l : List Char) : List Char :=
  List.rdropWhile Char.isWhitespace (List.dropWhile Char.isWhitespace l)

/-- Python `str.strip()`: remove leading and trailing whitespace. -/
def pyStrip (s : String) : String :=
  String.mk (trimChars s.data)

/-- Python `str.upper()`: uppercase every character. -/
def pyUpper (s : String) : String :=
  String.mk (s.data.map Char.toUpper)

instance {ε α : Type} [DecidableEq ε] [DecidableEq α] : DecidableEq (Except ε α)
  | Except.ok a, Except.ok b =>
      if h : a = b then Decidable.isTrue (by rw [h])
      else Decidable.isFalse (by intro hc; cases hc; exact h rfl)
  | Except.ok _, Except.error _ => Decidable.isFalse (by intro hc; cases hc)
  | Except.error _, Except.ok _ => Decidable.isFalse (by intro hc; cases hc)
  | Except.error a, Except.error b =>
      if h : a = b then Decidable.isTrue (by rw [h])
      else Decidable.isFalse (by intro hc; cases hc; exact h rfl)

/-- One stored event: the dict appended at app.py lines 138-143, with keys
`from_date`, `to_date`, `repeats`, `description`. -/
structure Event where
  from_date : DateTime
  to_date : DateTime
  repeats : String
  description : String
deriving DecidableEq

/-- The two validation failures of `add_event_callback`: `EmptyDescription`
is the code's "Please enter a description." branch (line 150), and
`EndBeforeStart` is its "End date/time must be after start date/time."
branch (line 148). -/
inductive ValidationError where
  | EmptyDescription : ValidationError
  | EndBeforeStart : ValidationError
deriving DecidableEq

/-- `add_event_callback` (app.py lines 122-150): if the stripped
description is non-empty and `to_datetime >= from_datetime`, append the
new entry (with the stripped description) to the end of the list;
otherwise report the corresponding error and leave the list alone. -/
def add_event (entries : List Event) (from_dt to_dt : DateTime) (rep desc : String) :
    Except ValidationError (List Event) :=
  if pyStrip desc ≠ "" then
    if from_dt.key ≤ to_dt.key then
      Except.ok (entries ++ [⟨from_dt, to_dt, rep, pyStrip desc⟩])
    else
      Except.error ValidationError.EndBeforeStart
  else
    Except.error ValidationError.EmptyDescription

/-- Python `list.pop(i)` as called by the delete handler (app.py line 194):
a negative index counts from the end; an index out of range raises
`IndexError: pop index out of range` and mutates nothing. -/
def listPop (l : List Event) (i : Int) : Except String (List Event) :=
  let n : Int := (l.length : Int)
  let j : Int := if i < 0 then i + n else i
  if 0 ≤ j ∧ j < n then Except.ok (l.eraseIdx j.toNat)
  else Except.error "pop index out of range"

/-- `total_pages = (total_entries - 1) // rows_per_page + 1`
(app.py line 165), with Python's floor division on integers. -/
def total_pages (total_entries rows_per_page : Int) : Int :=
  (total_entries - 1).fdiv rows_per_page + 1

/-- The slice `entries[start_idx:end_idx]` with
`start_idx = page * rows_per_page` and
`end_idx = min(start_idx + rows_per_page, total_entries)`
(app.py lines 172-173 and 184). -/
def pageSlice (entries : List Event) (page rows_per_page : Nat) : List Event :=
  let total_entries := entries.length
  let start_idx := page * rows_per_page
  let end_idx := min (start_idx + rows_per_page) total_entries
  (entries.drop start_idx).take (end_idx - start_idx)

/-- The recurrence-token normalization of app.py lines 45-47:
`freq = repeats.upper().strip()`, then `ANNUALLY` becomes `YEARLY`. -/
def norm_freq (repeats : String) : String :=
  let freq := pyStrip (pyUpper repeats)
  if freq = "ANNUALLY" then "YEARLY" else freq

/-- The list of lines built by `create_ics_event` (app.py lines 25-52)
before the final `"\n".join`; `now` and `uid` stand for the freshly
generated `datetime.datetime.now()` stamp and `uuid.uuid4()` value. -/
def create_ics_event_lines (now uid : String) (start_dt end_dt : DateTime)
    (description repeats : String) : List String :=
  let event : List String :=
    ["BEGIN:VEVENT",
     "DTSTAMP:" ++ now,
     "UID:" ++ uid,
     "DTSTART:" ++ start_dt.fmtFull,
     "DTEND:" ++ end_dt.fmtFull,
     "SUMMARY:" ++ description,
     "DESCRIPTION:" ++ description]
  let event : List String :=
    if repeats ≠ "" ∧ repeats ≠ "NONE" then
      if norm_freq repeats ∈ ["DAILY", "WEEKLY", "MONTHLY", "YEARLY"] then
        event ++ ["RRULE:FREQ=" ++ norm_freq repeats]
      else event
    else event
  event ++ ["END:VEVENT"]

/-- Python `"\n".join(lines)`. -/
def joinLines : List String → String
  | [] => ""
  | [x] => x
  | x :: y :: xs => x ++ "\n" ++ joinLines (y :: xs)

/-- `create_ics_event` (app.py lines 25-52): the joined event block. -/
def create_ics_event (now uid : String) (start_dt end_dt : DateTime)
    (description repeats : String) : String :=
  joinLines (create_ics_event_lines now uid start_dt end_dt description repeats)

/-- The list `events` of per-event block strings built by the loop of
`generate_ics_content` (app.py lines 57-65); `env i` is the (stamp, uid)
pair generated for the i-th event. -/
def event_strings (env : Nat → String × String) : Nat → List Event → List String
  | _, [] => []
  | i, e :: rest =>
      create_ics_event (env i).1 (env i).2 e.from_date e.to_date e.description e.repeats
        :: event_strings env (i + 1) rest

/-- The fixed calendar-wrapper opening lines (app.py lines 67-72). -/
def calendar_header : List String :=
  ["BEGIN:VCALENDAR",
   "VERSION:2.0",
   "PRODID:-//Calendar Entry App//Streamlit//EN",
   "CALSCALE:GREGORIAN"]

/-- `generate_ics_content` (app.py lines 55-76): wrapper lines, then the
event block strings, then `END:VCALENDAR`, joined with newlines. -/
def generate_ics_content (env : Nat → String × String) (entries : List Event) : String :=
  joinLines (calendar_header ++ event_strings env 0 entries ++ ["END:VCALENDAR"])

/-- The flat per-event blocks of an export: the concatenation of the line
lists of each event's block, in input order. -/
def event_blocks (env : Nat → String × String) : Nat → List Event → List String
  | _, [] => []
  | i, e :: rest =>
      create_ics_event_lines (env i).1 (env i).2 e.from_date e.to_date e.description e.repeats
        ++ event_blocks env (i + 1) rest

/-- The full export document as a flat list of lines: wrapper, per-event
blocks, close marker. -/
def docLines (env : Nat → String × String) (entries : List Event) : List String :=
  calendar_header ++ event_blocks env 0 entries ++ ["END:VCALENDAR"]

/-- The recurrence options offered by the UI selectbox (app.py line 112):
the only values that can reach `add_event_callback` as `repeats`. -/
def validRecurrences : List String :=
  ["NONE", "DAILY", "WEEKLY", "MONTHLY", "ANNUALLY"]

/-- The §3 invariants of a stored event: end not before start, description
non-empty and equal to its own stripped form, recurrence in the
five-member enumeration. -/
def eventValid (e : Event) : Prop :=
  e.from_date.key ≤ e.to_date.key ∧
  e.description ≠ "" ∧
  pyStrip e.description = e.description ∧
  e.repeats ∈ validRecurrences

instance (e : Event) : Decidable (eventValid e) := by
  unfold eventValid
  infer_instance

/-- One user action on the store: the three mutating operations reachable
from the UI (add via the form, delete via a row's button, clear-all). -/
inductive Op where
  | addOp : DateTime → DateTime → String → String → Op
  | removeOp : Int → Op
  | clearOp : Op

/-- Whether an operation's recurrence input is one the UI selectbox can
produce (non-add operations carry no recurrence input). -/
def opRecurrenceOk : Op → Prop
  | Op.addOp _ _ rep _ => rep ∈ validRecurrences
  | Op.removeOp _ => True
  | Op.clearOp => True

instance (op : Op) : Decidable (opRecurrenceOk op) := by
  cases op <;> (unfold opRecurrenceOk; infer_instance)

/-- Effect of one user action on the entry list.  A failed `add` leaves
the list unchanged (the callback only sets an error message); a failed
`pop` cannot occur from the UI but likewise would leave the list
unchanged; clear-all resets to `[]` (app.py line 235). -/
def applyOp (entries : List Event) : Op → List Event
  | Op.addOp f t rep desc =>
      match add_event entries f t rep desc with
      | Except.ok l => l
      | Except.error _ => entries
  | Op.removeOp i =>
      match listPop entries i with
      | Except.ok l => l
      | Except.error _ => entries
  | Op.clearOp => []

/-- Run a sequence of user actions starting from the empty store. -/
def runOps (ops : List Op) : List Event :=
  ops.foldl applyOp []

/-- The recurrence part of an event block, extracted from the conditional
appends of app.py lines 44-49: one `RRULE:FREQ=` line when the normalized
token is a valid frequency, nothing otherwise. -/
def rule_lines (repeats : String) : List String :=
  if repeats ≠ "" ∧ repeats ≠ "NONE" then
    if norm_freq repeats ∈ ["DAILY", "WEEKLY", "MONTHLY", "YEARLY"] then
      ["RRULE:FREQ=" ++ norm_freq repeats]
    else []
  else []

/-- Two line lists agree except possibly in the payloads of `DTSTAMP:` and
`UID:` lines, which must appear at the same positions in both. -/
inductive LinesAgree : List String → List String → Prop where
  | nil : LinesAgree [] []
  | same (s : String) {a b : List String} :
      LinesAgree a b → LinesAgree (s :: a) (s :: b)
  | stamp (x y : String) {a b : List String} :
      LinesAgree a b → LinesAgree (("DTSTAMP:" ++ x) :: a) (("DTSTAMP:" ++ y) :: b)
  | uid (x y : String) {a b : List String} :
      LinesAgree a b → LinesAgree (("UID:" ++ x) :: a) (("UID:" ++ y) :: b)

/-- A concrete timestamp used by witnesses: 2024-01-02 03:04:05. -/
def dtA : DateTime := ⟨2024, 1, 2, 3, 4, 5⟩

/-- A concrete later timestamp used by witnesses: 2024-05-06 07:08:09. -/
def dtB : DateTime := ⟨2024, 5, 6, 7, 8, 9⟩

/-- Concrete event A used by witnesses. -/
def evA : Event := ⟨dtA, dtB, "NONE", "A"⟩

/-- Concrete event B used by witnesses. -/
def evB : Event := ⟨dtA, dtB, "DAILY", "B"⟩

/-- Concrete event C used by witnesses. -/
def evC : Event := ⟨dtA, dtB, "WEEKLY", "C"⟩

/-! ### Validation of `add` (claims C1, C2) -/

/-- C1: `add` with an empty or whitespace-only description fails with
`EmptyDescription` and leaves the store unchanged; an accepted input
appends exactly one new event at the end of the sequence, whose stored
description is the stripped input description. -/
theorem C1_add_empty_description (entries : List Event) (f t : DateTime)
    (rep desc : String) :
    (pyStrip desc = "" →
      add_event entries f t rep desc = Except.error ValidationError.EmptyDescription ∧
      applyOp entries (Op.addOp f t rep desc) = entries) ∧
    (pyStrip desc ≠ "" → f.key ≤ t.key →
      add_event entries f t rep desc =
        Except.ok (entries ++ [⟨f, t, rep, pyStrip desc⟩])) := by
  constructor
  · intro h
    constructor
    · simp [add_event, h]
    · simp [applyOp, add_event, h]
  · intro h hle
    simp [add_event, h, hle]

/-- C1 witness: `"  Lunch  "` is stored as `"Lunch"`, and a
whitespace-only description is rejected without touching the store. -/
theorem C1_witness :
    add_event [] dtA dtB "NONE" "  Lunch  " =
      Except.ok [⟨dtA, dtB, "NONE", "Lunch"⟩] ∧
    add_event [evA] dtA dtB "NONE" "   " =
      Except.error ValidationError.EmptyDescription ∧
    applyOp [evA] (Op.addOp dtA dtB "NONE" "   ") = [evA] := by
  refine ⟨?_, ?_, ?_⟩
  · exact (C1_add_empty_description [] dtA dtB "NONE" "  Lunch  ").2 (by decide) (by decide)
  · exact ((C1_add_empty_description [evA] dtA dtB "NONE" "   ").1 (by decide)).1
  · exact ((C1_add_empty_description [evA] dtA dtB "NONE" "   ").1 (by decide)).2

/-- C2: with a non-empty stripped description, `add` fails with
`EndBeforeStart` exactly when the end timestamp is before the start
timestamp (leaving the store unchanged), and succeeds when they are
equal, appending the event. -/
theorem C2_end_before_start (entries : List Event) (f t : DateTime)
    (rep desc : String) (hd : pyStrip desc ≠ "") :
    (add_event entries f t rep desc = Except.error ValidationError.EndBeforeStart ↔
      t.key < f.key) ∧
    (t.key < f.key → applyOp entries (Op.addOp f t rep desc) = entries) ∧
    (f.key = t.key →
      add_event entries f t rep desc =
        Except.ok (entries ++ [⟨f, t, rep, pyStrip desc⟩])) := by
  refine ⟨⟨?_, ?_⟩, ?_, ?_⟩
  · intro h
    by_contra hnot
    push_neg at hnot
    simp [add_event, hd, hnot] at h
  · intro h
    have hle : ¬ f.key ≤ t.key := by omega
    simp [add_event, hd, hle]
  · intro h
    have hle : ¬ f.key ≤ t.key := by omega
    simp [applyOp, add_event, hd, hle]
  · intro h
    simp [add_event, hd, Nat.le_of_eq h]

/-- C2 witness: `end == start` succeeds; `end < start` fails with
`EndBeforeStart` and leaves the store unchanged. -/
theorem C2_witness :
    add_event [] dtA dtA "NONE" "x" = Except.ok [⟨dtA, dtA, "NONE", "x"⟩] ∧
    add_event [evA] dtB dtA "NONE" "x" = Except.error ValidationError.EndBeforeStart ∧
    applyOp [evA] (Op.addOp dtB dtA "NONE" "x") = [evA] := by
  refine ⟨?_, ?_, ?_⟩
  · exact (C2_end_before_start [] dtA dtA "NONE" "x" (by decide)).2.2 rfl
  · exact (C2_end_before_start [evA] dtB dtA "NONE" "x" (by decide)).1.mpr (by decide)
  · exact (C2_end_before_start [evA] dtB dtA "NONE" "x" (by decide)).2.1 (by decide)

/-! ### Removal by position (claims C3, C10) -/

/-- C3 counterexample: on the 1-element store `[evA]`, the index `-1` is
outside `[0, 1)`, yet `pop` succeeds (removing the last element) instead
of failing with `IndexError` as the claim asserts. -/
theorem C3_counterexample :
    ¬ (0 ≤ (-1 : Int) ∧ (-1 : Int) < 1) ∧
    listPop [evA] (-1) = Except.ok [] ∧
    listPop [evA] (-1) ≠ Except.error "pop index out of range" := by decide

/-- C3 amended: `pop` at an in-range non-negative index removes the event
at that position, shifting later events left; it fails with `IndexError`
(leaving the store unchanged) exactly for indices `≥ length` or
`< -length` — not for every index outside `[0, length)`, since negative
indices down to `-length` are interpreted from the end. -/
theorem C3_remove_at (l : List Event) (i : Int) :
    (0 ≤ i → i < (l.length : Int) →
      listPop l i = Except.ok (l.take i.toNat ++ l.drop (i.toNat + 1))) ∧
    ((l.length : Int) ≤ i ∨ i < -(l.length : Int) →
      listPop l i = Except.error "pop index out of range" ∧
      applyOp l (Op.removeOp i) = l) := by
  constructor
  · intro h0 hn
    have hneg : ¬ i < 0 := by omega
    rw [← List.eraseIdx_eq_take_drop_succ]
    simp only [listPop, hneg, if_false]
    rw [if_pos ⟨h0, hn⟩]
  · intro hout
    have herr : listPop l i = Except.error "pop index out of range" := by
      simp only [listPop]
      by_cases hneg : i < 0
      · rw [if_pos hneg, if_neg (by omega)]
      · rw [if_neg hneg, if_neg (by omega)]
    exact ⟨herr, by simp [applyOp, herr]⟩

/-- C3 witness: `removeAt(1)` on `[A, B, C]` yields `[A, C]`, and
`removeAt(5)` on the 1-element store `[A]` fails, leaving it unchanged. -/
theorem C3_witness :
    listPop [evA, evB, evC] 1 = Except.ok [evA, evC] ∧
    listPop [evA] 5 = Except.error "pop index out of range" ∧
    applyOp [evA] (Op.removeOp 5) = [evA] := by
  refine ⟨?_, ?_, ?_⟩
  · exact (C3_remove_at [evA, evB, evC] 1).1 (by decide) (by decide)
  · exact ((C3_remove_at [evA] 5).2 (Or.inl (by decide))).1
  · exact ((C3_remove_at [evA] 5).2 (Or.inl (by decide))).2

/-- C10: a negative index `i` with `-length ≤ i ≤ -1` does not fail:
`pop` removes the event at position `length + i`. -/
theorem C10_negative_index (l : List Event) (i : Int)
    (h1 : -(l.length : Int) ≤ i) (h2 : i < 0) :
    listPop l i =
      Except.ok (l.take (i + l.length).toNat ++ l.drop ((i + l.length).toNat + 1)) := by
  rw [← List.eraseIdx_eq_take_drop_succ]
  simp only [listPop]
  rw [if_pos h2, if_pos ⟨by omega, by omega⟩]

/-- C10 witness: `pop(-1)` on `[A, B]` removes the last event. -/
theorem C10_witness : listPop [evA, evB] (-1) = Except.ok [evA] := by
  have h := C10_negative_index [evA, evB] (-1) (by decide) (by decide)
  simpa using h

/-! ### Pagination (claims C4, C5) -/

/-- C4: the page slice consists exactly of the events at positions
`[p*s, min((p+1)*s, length))` in order, and is empty whenever
`p*s >= length`. -/
theorem C4_page_slice (l : List Event) (p s : Nat) (hs : 0 < s) :
    ((pageSlice l p s).length = min ((p + 1) * s) l.length - p * s) ∧
    (∀ i, i < s → (pageSlice l p s)[i]? = l[p * s + i]?) ∧
    (l.length ≤ p * s → pageSlice l p s = []) := by
  refine ⟨?_, ?_, ?_⟩
  · simp only [pageSlice, List.length_take, List.length_drop]
    have hmul : (p + 1) * s = p * s + s := by ring
    rw [hmul]
    omega
  · intro i hi
    simp only [pageSlice, List.getElem?_take, List.getElem?_drop]
    by_cases hc : i < min (p * s + s) l.length - p * s
    · rw [if_pos hc]
    · rw [if_neg hc]
      symm
      apply List.getElem?_eq_none
      omega
  · intro h
    simp [pageSlice, List.drop_eq_nil_of_le h]

/-- C4 witness: after adding A then B, page 0 of size 10 contains exactly
`[A, B]`, and page 1 is empty. -/
theorem C4_witness :
    (pageSlice [evA, evB] 0 10)[0]? = some evA ∧
    (pageSlice [evA, evB] 0 10)[1]? = some evB ∧
    pageSlice [evA, evB] 1 10 = [] := by
  refine ⟨?_, ?_, ?_⟩
  · have h := (C4_page_slice [evA, evB] 0 10 (by decide)).2.1 0 (by decide)
    simpa using h
  · have h := (C4_page_slice [evA, evB] 0 10 (by decide)).2.1 1 (by decide)
    simpa using h
  · exact (C4_page_slice [evA, evB] 1 10 (by decide)).2.2 (by decide)

/-- C5 counterexample: on the empty store the code's formula
`(total_entries - 1) // rows_per_page + 1` evaluates, under Python floor
division, to `0` — not to the claimed minimum of `1`. -/
theorem C5_counterexample :
    total_pages 0 10 = 0 ∧ total_pages 0 10 ≠ 1 := by decide

/-- C5 amended: for every store length `n ≥ 1` (the code only computes
`total_pages` when the entry list is non-empty; at `n = 0` its formula
would yield `0`, not `1`) and every positive page size `s`, the formula
`(n - 1) // s + 1` equals `ceil(n / s)`, i.e. the unique `k` with
`n ≤ k * s` and `(k - 1) * s < n`. -/
theorem C5_page_count (n s : Nat) (hn : 1 ≤ n) (hs : 1 ≤ s) :
    total_pages (n : Int) (s : Int) = (((n + s - 1) / s : Nat) : Int) ∧
    n ≤ ((n + s - 1) / s) * s ∧
    ((n + s - 1) / s - 1) * s < n := by
  have hq := Nat.div_add_mod (n - 1) s
  have hr : (n - 1) % s < s := Nat.mod_lt _ hs
  have hceil : (n + s - 1) / s = (n - 1) / s + 1 := by
    have h1 : n + s - 1 = (n - 1) + s := by omega
    rw [h1, Nat.add_div_right _ hs]
  refine ⟨?_, ?_, ?_⟩
  · unfold total_pages
    have hcast : ((n : Int) - 1) = ((n - 1 : Nat) : Int) := (Nat.cast_sub hn).symm
    rw [hcast, ← Int.ofNat_fdiv, hceil]
    push_cast
    ring
  · rw [hceil]
    have he : ((n - 1) / s + 1) * s = s * ((n - 1) / s) + s := by ring
    rw [he]
    omega
  · rw [hceil, Nat.add_sub_cancel, Nat.mul_comm]
    omega

/-- C5 witness: with 23 events and page size 10 there are 3 pages. -/
theorem C5_witness : total_pages 23 10 = 3 := by
  have h := (C5_page_count 23 10 (by decide) (by decide)).1
  simpa using h

/-! ### Recurrence mapping in the exporter (claim C6) -/

/-- Every event block is the seven fixed header lines, then the optional
recurrence part, then the block-close marker. -/
theorem create_ics_event_lines_eq (now uid : String) (sd ed : DateTime) (d rep : String) :
    create_ics_event_lines now uid sd ed d rep =
      ["BEGIN:VEVENT", "DTSTAMP:" ++ now, "UID:" ++ uid,
       "DTSTART:" ++ sd.fmtFull, "DTEND:" ++ ed.fmtFull,
       "SUMMARY:" ++ d, "DESCRIPTION:" ++ d] ++ rule_lines rep ++ ["END:VEVENT"] := by
  unfold create_ics_event_lines rule_lines
  split_ifs <;> simp

/-- C6 counterexample: `"YEARLY"` is outside the five-member enumeration,
yet exporting an event with it emits the line `RRULE:FREQ=YEARLY` instead
of emitting no recurrence line. -/
theorem C6_counterexample :
    "YEARLY" ∉ validRecurrences ∧
    "RRULE:FREQ=YEARLY" ∈ create_ics_event_lines "N" "U" dtA dtB "x" "YEARLY" := by decide

/-- C6 amended: `NONE` (and the falsy empty string) emits no recurrence
line; `ANNUALLY` emits exactly `RRULE:FREQ=YEARLY`; `DAILY`, `WEEKLY`,
`MONTHLY` pass through unchanged; any other value is uppercased and
stripped (with `ANNUALLY` mapped to `YEARLY`) and emits a recurrence line
exactly when the result is one of `DAILY`, `WEEKLY`, `MONTHLY`, `YEARLY`
(so e.g. `"YEARLY"` or `"daily"` do emit a line); in no case does the
exporter fail. -/
theorem C6_recurrence_mapping (now uid : String) (sd ed : DateTime) (d rep : String) :
    (rep = "NONE" ∨ rep = "" →
      create_ics_event_lines now uid sd ed d rep =
        ["BEGIN:VEVENT", "DTSTAMP:" ++ now, "UID:" ++ uid,
         "DTSTART:" ++ sd.fmtFull, "DTEND:" ++ ed.fmtFull,
         "SUMMARY:" ++ d, "DESCRIPTION:" ++ d, "END:VEVENT"]) ∧
    (rep = "ANNUALLY" →
      create_ics_event_lines now uid sd ed d rep =
        ["BEGIN:VEVENT", "DTSTAMP:" ++ now, "UID:" ++ uid,
         "DTSTART:" ++ sd.fmtFull, "DTEND:" ++ ed.fmtFull,
         "SUMMARY:" ++ d, "DESCRIPTION:" ++ d, "RRULE:FREQ=YEARLY", "END:VEVENT"]) ∧
    (rep = "DAILY" ∨ rep = "WEEKLY" ∨ rep = "MONTHLY" →
      create_ics_event_lines now uid sd ed d rep =
        ["BEGIN:VEVENT", "DTSTAMP:" ++ now, "UID:" ++ uid,
         "DTSTART:" ++ sd.fmtFull, "DTEND:" ++ ed.fmtFull,
         "SUMMARY:" ++ d, "DESCRIPTION:" ++ d, "RRULE:FREQ=" ++ rep, "END:VEVENT"]) ∧
    (rep ≠ "" → rep ≠ "NONE" →
      norm_freq rep ∈ ["DAILY", "WEEKLY", "MONTHLY", "YEARLY"] →
      create_ics_event_lines now uid sd ed d rep =
        ["BEGIN:VEVENT", "DTSTAMP:" ++ now, "UID:" ++ uid,
         "DTSTART:" ++ sd.fmtFull, "DTEND:" ++ ed.fmtFull,
         "SUMMARY:" ++ d, "DESCRIPTION:" ++ d, "RRULE:FREQ=" ++ norm_freq rep,
         "END:VEVENT"]) ∧
    (norm_freq rep ∉ ["DAILY", "WEEKLY", "MONTHLY", "YEARLY"] →
      create_ics_event_lines now uid sd ed d rep =
        ["BEGIN:VEVENT", "DTSTAMP:" ++ now, "UID:" ++ uid,
         "DTSTART:" ++ sd.fmtFull, "DTEND:" ++ ed.fmtFull,
         "SUMMARY:" ++ d, "DESCRIPTION:" ++ d, "END:VEVENT"]) := by
  refine ⟨?_, ?_, ?_, ?_, ?_⟩
  · rintro (rfl | rfl)
    · have hr : rule_lines "NONE" = [] := by decide
      rw [create_ics_event_lines_eq, hr]
      simp
    · have hr : rule_lines "" = [] := by decide
      rw [create_ics_event_lines_eq, hr]
      simp
  · rintro rfl
    have hr : rule_lines "ANNUALLY" = ["RRULE:FREQ=YEARLY"] := by decide
    rw [create_ics_event_lines_eq, hr]
    simp
  · rintro (rfl | rfl | rfl)
    · have hr : rule_lines "DAILY" = ["RRULE:FREQ=DAILY"] := by decide
      rw [create_ics_event_lines_eq, hr]
      simp
    · have hr : rule_lines "WEEKLY" = ["RRULE:FREQ=WEEKLY"] := by decide
      rw [create_ics_event_lines_eq, hr]
      simp
    · have hr : rule_lines "MONTHLY" = ["RRULE:FREQ=MONTHLY"] := by decide
      rw [create_ics_event_lines_eq, hr]
      simp
  · intro h1 h2 h3
    have hr : rule_lines rep = ["RRULE:FREQ=" ++ norm_freq rep] := by
      unfold rule_lines
      rw [if_pos ⟨h1, h2⟩, if_pos h3]
    rw [create_ics_event_lines_eq, hr]
    simp
  · intro h3
    have hr : rule_lines rep = [] := by
      unfold rule_lines
      by_cases houter : rep ≠ "" ∧ rep ≠ "NONE"
      · rw [if_pos houter, if_neg h3]
      · rw [if_neg houter]
    rw [create_ics_event_lines_eq, hr]
    simp

/-- C6 witness: an `ANNUALLY` event block contains exactly the line
`RRULE:FREQ=YEARLY`, and a `NONE` event block has no recurrence line. -/
theorem C6_witness :
    create_ics_event_lines "N" "U" dtA dtB "x" "ANNUALLY" =
      ["BEGIN:VEVENT", "DTSTAMP:N", "UID:U", "DTSTART:" ++ dtA.fmtFull,
       "DTEND:" ++ dtB.fmtFull, "SUMMARY:x", "DESCRIPTION:x",
       "RRULE:FREQ=YEARLY", "END:VEVENT"] ∧
    create_ics_event_lines "N" "U" dtA dtB "x" "NONE" =
      ["BEGIN:VEVENT", "DTSTAMP:N", "UID:U", "DTSTART:" ++ dtA.fmtFull,
       "DTEND:" ++ dtB.fmtFull, "SUMMARY:x", "DESCRIPTION:x", "END:VEVENT"] := by
  constructor
  · exact (C6_recurrence_mapping "N" "U" dtA dtB "x" "ANNUALLY").2.1 rfl
  · exact (C6_recurrence_mapping "N" "U" dtA dtB "x" "NONE").1 (Or.inl rfl)

/-! ### Document structure of the export (claim C7) -/

/-- `"\n".join` distributes over concatenation of non-empty line lists. -/
theorem joinLines_append (a b : List String) (ha : a ≠ []) (hb : b ≠ []) :
    joinLines (a ++ b) = joinLines a ++ "\n" ++ joinLines b := by
  induction a with
  | nil => exact absurd rfl ha
  | cons x xs ih =>
    cases xs with
    | nil =>
      cases b with
      | nil => exact absurd rfl hb
      | cons y ys => rfl
    | cons z zs =>
      show x ++ "\n" ++ joinLines ((z :: zs) ++ b) =
        joinLines (x :: z :: zs) ++ "\n" ++ joinLines b
      rw [ih (by simp)]
      show x ++ "\n" ++ (joinLines (z :: zs) ++ "\n" ++ joinLines b) =
        (x ++ "\n" ++ joinLines (z :: zs)) ++ "\n" ++ joinLines b
      simp [String.append_assoc]

/-- An event block is never the empty line list. -/
theorem create_ics_event_lines_ne_nil (now uid : String) (sd ed : DateTime)
    (d rep : String) : create_ics_event_lines now uid sd ed d rep ≠ [] := by
  rw [create_ics_event_lines_eq]
  simp

/-- Appending the close marker never produces the empty line list. -/
theorem append_close_ne_nil (xs : List String) : xs ++ ["END:VCALENDAR"] ≠ [] := by
  intro hc
  rcases List.append_eq_nil.mp hc with ⟨-, h⟩
  simp at h

/-- Joining the per-event block strings of the loop is the same as joining
the flat concatenation of the per-event line lists, in front of any
non-empty tail. -/
theorem joinLines_event_strings (env : Nat → String × String) (t : List String)
    (ht : t ≠ []) : ∀ (i : Nat) (es : List Event),
    joinLines (event_strings env i es ++ t) = joinLines (event_blocks env i es ++ t) := by
  intro i es
  induction es generalizing i with
  | nil => rfl
  | cons e rest ih =>
    have hL : event_strings env i (e :: rest) ++ t =
        [create_ics_event (env i).1 (env i).2 e.from_date e.to_date e.description e.repeats]
          ++ (event_strings env (i + 1) rest ++ t) := by
      simp [event_strings]
    have hR : event_blocks env i (e :: rest) ++ t =
        create_ics_event_lines (env i).1 (env i).2 e.from_date e.to_date e.description e.repeats
          ++ (event_blocks env (i + 1) rest ++ t) := by
      simp [event_blocks]
    have ht1 : event_strings env (i + 1) rest ++ t ≠ [] := by
      intro hc
      exact ht (List.append_eq_nil.mp hc).2
    have ht2 : event_blocks env (i + 1) rest ++ t ≠ [] := by
      intro hc
      exact ht (List.append_eq_nil.mp hc).2
    rw [hL, hR]
    rw [joinLines_append _ _ (by simp) ht1]
    rw [joinLines_append _ _ (create_ics_event_lines_ne_nil _ _ _ _ _ _) ht2]
    rw [ih]
    rfl

/-- The exported document is the newline-join of its flat line list. -/
theorem generate_eq_join_docLines (env : Nat → String × String) (entries : List Event) :
    generate_ics_content env entries = joinLines (docLines env entries) := by
  unfold generate_ics_content docLines
  cases entries with
  | nil => rfl
  | cons e rest =>
    rw [List.append_assoc, List.append_assoc]
    calc joinLines (calendar_header ++ (event_strings env 0 (e :: rest) ++ ["END:VCALENDAR"]))
        = joinLines calendar_header ++ "\n"
            ++ joinLines (event_strings env 0 (e :: rest) ++ ["END:VCALENDAR"]) :=
          joinLines_append _ _ (by simp [calendar_header]) (append_close_ne_nil _)
      _ = joinLines calendar_header ++ "\n"
            ++ joinLines (event_blocks env 0 (e :: rest) ++ ["END:VCALENDAR"]) := by
          rw [joinLines_event_strings env _ (by simp) 0 (e :: rest)]
      _ = joinLines (calendar_header ++ (event_blocks env 0 (e :: rest) ++ ["END:VCALENDAR"])) :=
          (joinLines_append _ _ (by simp [calendar_header]) (append_close_ne_nil _)).symm

/-- The optional recurrence part has at most one line. -/
theorem rule_lines_length (rep : String) : (rule_lines rep).length ≤ 1 := by
  unfold rule_lines
  split_ifs <;> simp

/-- C7: the export document is the newline-join of: the four fixed
calendar-open lines, then one block per event in input order — each block
being exactly `BEGIN:VEVENT`, the `DTSTAMP` line, the `UID` line, the
`DTSTART` line, the `DTEND` line, the `SUMMARY` line (the description),
the `DESCRIPTION` line (the description again), an optional recurrence
line, and `END:VEVENT` — and finally `END:VCALENDAR`; exporting the empty
list yields exactly the four wrapper lines plus the close marker. -/
theorem C7_document_structure (env : Nat → String × String) (entries : List Event) :
    generate_ics_content env entries = joinLines (docLines env entries) ∧
    docLines env entries =
      "BEGIN:VCALENDAR" :: "VERSION:2.0" :: "PRODID:-//Calendar Entry App//Streamlit//EN" ::
        "CALSCALE:GREGORIAN" :: (event_blocks env 0 entries ++ ["END:VCALENDAR"]) ∧
    (∀ now uid : String, ∀ sd ed : DateTime, ∀ d rep : String,
      ∃ rule : List String, rule.length ≤ 1 ∧
        create_ics_event_lines now uid sd ed d rep =
          ["BEGIN:VEVENT", "DTSTAMP:" ++ now, "UID:" ++ uid, "DTSTART:" ++ sd.fmtFull,
           "DTEND:" ++ ed.fmtFull, "SUMMARY:" ++ d, "DESCRIPTION:" ++ d]
            ++ rule ++ ["END:VEVENT"]) ∧
    generate_ics_content env [] =
      "BEGIN:VCALENDAR\nVERSION:2.0\nPRODID:-//Calendar Entry App//Streamlit//EN\nCALSCALE:GREGORIAN\nEND:VCALENDAR" := by
  refine ⟨generate_eq_join_docLines env entries, rfl, ?_, rfl⟩
  intro now uid sd ed d rep
  exact ⟨rule_lines rep, rule_lines_length rep, create_ics_event_lines_eq now uid sd ed d rep⟩

/-! ### Two exports of the same store (claim C9) -/

/-- `LinesAgree` is reflexive. -/
theorem linesAgree_refl (l : List String) : LinesAgree l l := by
  induction l with
  | nil => exact LinesAgree.nil
  | cons x xs ih => exact LinesAgree.same x ih

/-- `LinesAgree` is closed under concatenation. -/
theorem linesAgree_append {a b c d : List String} (h1 : LinesAgree a b)
    (h2 : LinesAgree c d) : LinesAgree (a ++ c) (b ++ d) := by
  induction h1 with
  | nil => exact h2
  | same s _ ih => exact LinesAgree.same s ih
  | stamp x y _ ih => exact LinesAgree.stamp x y ih
  | uid x y _ ih => exact LinesAgree.uid x y ih

/-- Two blocks for the same event, generated with different stamp and uid
values, agree except at the `DTSTAMP` and `UID` lines. -/
theorem block_linesAgree (n1 u1 n2 u2 : String) (sd ed : DateTime) (d rep : String) :
    LinesAgree (create_ics_event_lines n1 u1 sd ed d rep)
      (create_ics_event_lines n2 u2 sd ed d rep) := by
  rw [create_ics_event_lines_eq, create_ics_event_lines_eq]
  refine linesAgree_append (linesAgree_append ?_ (linesAgree_refl _)) (linesAgree_refl _)
  exact LinesAgree.same _ (LinesAgree.stamp n1 n2 (LinesAgree.uid u1 u2
    (LinesAgree.same _ (LinesAgree.same _ (LinesAgree.same _
      (LinesAgree.same _ LinesAgree.nil))))))

/-- The block lists of two exports of the same event list agree except at
`DTSTAMP` and `UID` lines. -/
theorem blocks_linesAgree (env1 env2 : Nat → String × String) :
    ∀ (i : Nat) (es : List Event),
    LinesAgree (event_blocks env1 i es) (event_blocks env2 i es) := by
  intro i es
  induction es generalizing i with
  | nil => exact LinesAgree.nil
  | cons e rest ih =>
    simp only [event_blocks]
    exact linesAgree_append (block_linesAgree _ _ _ _ _ _ _ _) (ih (i + 1))

/-- Whole-document version of `blocks_linesAgree`. -/
theorem doc_linesAgree (env1 env2 : Nat → String × String) (entries : List Event) :
    LinesAgree (docLines env1 entries) (docLines env2 entries) := by
  unfold docLines
  exact linesAgree_append
    (linesAgree_append (linesAgree_refl calendar_header)
      (blocks_linesAgree env1 env2 0 entries))
    (linesAgree_refl _)

/-- Agreeing line lists have the same length. -/
theorem linesAgree_length {a b : List String} (h : LinesAgree a b) :
    a.length = b.length := by
  induction h with
  | nil => rfl
  | same s _ ih => simp [ih]
  | stamp x y _ ih => simp [ih]
  | uid x y _ ih => simp [ih]

/-- Agreeing line lists are equal at every position, except where both
hold a `DTSTAMP:` line or both hold a `UID:` line. -/
theorem linesAgree_getElem {a b : List String} (h : LinesAgree a b) (j : Nat) :
    a[j]? = b[j]? ∨
    (∃ x y, a[j]? = some ("DTSTAMP:" ++ x) ∧ b[j]? = some ("DTSTAMP:" ++ y)) ∨
    (∃ x y, a[j]? = some ("UID:" ++ x) ∧ b[j]? = some ("UID:" ++ y)) := by
  induction h generalizing j with
  | nil => left; rfl
  | same s _ ih =>
    cases j with
    | zero => left; simp
    | succ n =>
      simp only [List.getElem?_cons_succ]
      exact ih n
  | stamp x y _ ih =>
    cases j with
    | zero => right; left; exact ⟨x, y, by simp, by simp⟩
    | succ n =>
      simp only [List.getElem?_cons_succ]
      exact ih n
  | uid x y _ ih =>
    cases j with
    | zero => right; right; exact ⟨x, y, by simp, by simp⟩
    | succ n =>
      simp only [List.getElem?_cons_succ]
      exact ih n

/-- C9: two exports of the same event list (with freshly generated stamps
and uids) produce documents whose flat line lists have the same length
and are identical at every position except the `DTSTAMP` and `UID` lines;
in particular the `DTSTART`, `DTEND`, `SUMMARY`, `DESCRIPTION` and
`RRULE` lines coincide. -/
theorem C9_export_stamp_uid_only (env₁ env₂ : Nat → String × String)
    (entries : List Event) :
    generate_ics_content env₁ entries = joinLines (docLines env₁ entries) ∧
    generate_ics_content env₂ entries = joinLines (docLines env₂ entries) ∧
    (docLines env₁ entries).length = (docLines env₂ entries).length ∧
    ∀ j : Nat,
      (docLines env₁ entries)[j]? = (docLines env₂ entries)[j]? ∨
      (∃ x y, (docLines env₁ entries)[j]? = some ("DTSTAMP:" ++ x) ∧
        (docLines env₂ entries)[j]? = some ("DTSTAMP:" ++ y)) ∨
      (∃ x y, (docLines env₁ entries)[j]? = some ("UID:" ++ x) ∧
        (docLines env₂ entries)[j]? = some ("UID:" ++ y)) := by
  have h := doc_linesAgree env₁ env₂ entries
  exact ⟨generate_eq_join_docLines env₁ entries, generate_eq_join_docLines env₂ entries,
    linesAgree_length h, fun j => linesAgree_getElem h j⟩

/-! ### Store invariants under all user actions (claim C8) -/

/-- A stripped character list has no leading whitespace left to strip. -/
theorem trimChars_no_leading (l : List Char) :
    List.dropWhile Char.isWhitespace (trimChars l) = trimChars l := by
  unfold trimChars
  cases hr : List.rdropWhile Char.isWhitespace (List.dropWhile Char.isWhitespace l) with
  | nil => simp
  | cons c cs =>
    have hpre := List.rdropWhile_prefix Char.isWhitespace
      (l := List.dropWhile Char.isWhitespace l)
    rw [hr] at hpre
    obtain ⟨t, ht⟩ := hpre
    have hd : List.dropWhile Char.isWhitespace (List.dropWhile Char.isWhitespace l) =
        List.dropWhile Char.isWhitespace l := List.dropWhile_idempotent _ _
    rw [← ht] at hd
    by_cases hc : Char.isWhitespace c
    · exfalso
      rw [List.cons_append, List.dropWhile_cons_of_pos hc] at hd
      have hlen := congrArg List.length hd
      rw [List.length_cons] at hlen
      have hle := (List.dropWhile_sublist (l := cs ++ t) Char.isWhitespace).length_le
      omega
    · rw [List.dropWhile_cons_of_neg hc]

/-- Stripping a character list twice is the same as stripping it once. -/
theorem trimChars_idem (l : List Char) : trimChars (trimChars l) = trimChars l :=
  calc trimChars (trimChars l)
      = List.rdropWhile Char.isWhitespace
          (List.dropWhile Char.isWhitespace (trimChars l)) := rfl
    _ = List.rdropWhile Char.isWhitespace (trimChars l) := by rw [trimChars_no_leading]
    _ = List.rdropWhile Char.isWhitespace
          (List.rdropWhile Char.isWhitespace (List.dropWhile Char.isWhitespace l)) := rfl
    _ = List.rdropWhile Char.isWhitespace (List.dropWhile Char.isWhitespace l) :=
          List.rdropWhile_idempotent _ _
    _ = trimChars l := rfl

/-- Python's `strip` is idempotent: a stored (already stripped) description
equals its own stripped form. -/
theorem pyStrip_idem (s : String) : pyStrip (pyStrip s) = pyStrip s := by
  show String.mk (trimChars (trimChars s.data)) = String.mk (trimChars s.data)
  rw [trimChars_idem]

/-- An `add` action either leaves the store unchanged or appends the one
validated event, in which case both validations passed. -/
theorem applyOp_add (entries : List Event) (f t : DateTime) (rep desc : String) :
    applyOp entries (Op.addOp f t rep desc) = entries ∨
    (applyOp entries (Op.addOp f t rep desc) = entries ++ [⟨f, t, rep, pyStrip desc⟩] ∧
      pyStrip desc ≠ "" ∧ f.key ≤ t.key) := by
  simp only [applyOp]
  by_cases hd : pyStrip desc ≠ ""
  · by_cases hk : f.key ≤ t.key
    · right
      refine ⟨?_, hd, hk⟩
      unfold add_event
      rw [if_pos hd, if_pos hk]
    · left
      unfold add_event
      rw [if_pos hd, if_neg hk]
  · left
    unfold add_event
    rw [if_neg hd]

/-- A `removeAt` action either leaves the store unchanged or erases one
position. -/
theorem applyOp_remove (entries : List Event) (i : Int) :
    applyOp entries (Op.removeOp i) = entries ∨
    ∃ j : Nat, applyOp entries (Op.removeOp i) = entries.eraseIdx j := by
  simp only [applyOp]
  cases h : listPop entries i with
  | error e => left; rfl
  | ok l =>
    right
    simp only [listPop] at h
    by_cases hc : (0 : Int) ≤ (if i < 0 then i + entries.length else i) ∧
        (if i < 0 then i + entries.length else i) < (entries.length : Int)
    · rw [if_pos hc] at h
      refine ⟨(if i < 0 then i + entries.length else i).toNat, ?_⟩
      injection h with h2
      exact h2.symm
    · rw [if_neg hc] at h
      cases h

/-- Each user action preserves validity of every stored event, given that
its recurrence input (if any) comes from the UI selectbox. -/
theorem applyOp_preserves (entries : List Event) (op : Op)
    (hinv : ∀ e ∈ entries, eventValid e) (hop : opRecurrenceOk op) :
    ∀ e ∈ applyOp entries op, eventValid e := by
  cases op with
  | addOp f t rep desc =>
    rcases applyOp_add entries f t rep desc with h | ⟨h, hd, hk⟩
    · rw [h]; exact hinv
    · rw [h]
      intro e he
      rcases List.mem_append.mp he with hmem | hmem
      · exact hinv e hmem
      · have heq : e = ⟨f, t, rep, pyStrip desc⟩ := by simpa using hmem
        subst heq
        exact ⟨hk, hd, pyStrip_idem desc, hop⟩
  | removeOp i =>
    rcases applyOp_remove entries i with h | ⟨j, h⟩
    · rw [h]; exact hinv
    · rw [h]
      intro e he
      exact hinv e (List.eraseIdx_subset entries j he)
  | clearOp =>
    intro e he
    simp [applyOp] at he

/-- Folding any action sequence over a valid store keeps every event valid. -/
theorem foldl_applyOp_preserves (ops : List Op) :
    ∀ entries, (∀ e ∈ entries, eventValid e) → (∀ op ∈ ops, opRecurrenceOk op) →
    ∀ e ∈ ops.foldl applyOp entries, eventValid e := by
  induction ops with
  | nil =>
    intro entries hinv _ e he
    exact hinv e he
  | cons op rest ih =>
    intro entries hinv hops
    simp only [List.foldl_cons]
    exact ih (applyOp entries op)
      (applyOp_preserves entries op hinv (hops op (by simp)))
      (fun o ho => hops o (by simp [ho]))

/-- C8: after any sequence of add, remove and clear actions from the empty
store — with every recurrence input drawn from the UI's five-member
selectbox — every stored event satisfies the §3 invariants: end not
before start, description non-empty and equal to its own stripped form,
recurrence in the five-member enumeration. -/
theorem C8_store_invariants (ops : List Op) (h : ∀ op ∈ ops, opRecurrenceOk op) :
    ∀ e ∈ runOps ops, eventValid e := by
  unfold runOps
  exact foldl_applyOp_preserves ops [] (by simp) h

/-- C8 witness: a mixed action sequence (valid adds, two rejected adds, a
removal) leaves a store whose remaining event is valid. -/
theorem C8_witness : eventValid ⟨dtA, dtB, "DAILY", "x"⟩ := by
  have h := C8_store_invariants
    [Op.addOp dtA dtB "DAILY" "  x  ", Op.addOp dtB dtA "NONE" "y",
     Op.addOp dtA dtB "NONE" "   ", Op.addOp dtA dtA "ANNUALLY" "z", Op.removeOp 1]
    (by decide)
  exact h ⟨dtA, dtB, "DAILY", "x"⟩ (by decide)
